import Mathlib

/-!
Verification of the campaign scheduling and progress-tracking engine of the
CRM WhatsApp system (src/utils/CampaignTimeScheduler.ts, src/services/CampaignService.ts,
the CampaignJob entity and CampaignJobService.retryFailedJob).

Modelling conventions:
* A JavaScript `Date` is modelled as an integer number of milliseconds (`Time := Int`).
  The model assumes a timezone without DST whose local midnight falls on multiples of
  86400000 ms, so `setHours(h,m,s,0)` on a date becomes `startOfDay t + msOfDay` and
  `setDate(getDate() ± 1)` becomes `t ± dayMs`.
* `Math.floor` of a real quotient of integers is `Int.fdiv` (floor division).
* The uncontrolled `Math.random()` draws of `getRandomInterval` are modelled as an
  injected stream `r : Nat → Int` of interval draws (one per scheduled job); theorems
  that need it assume every draw lies in `[minIntervalMinutes, maxIntervalMinutes]`,
  which is exactly the range `getRandomInterval` produces when `min ≤ max`.
* The `while` loop of `scheduleJobsWithTimeWindows` is modelled with explicit fuel:
  `none` means the loop did not finish within `fuel` iterations.
-/

namespace CRM

abbrev Time := Int

def dayMs : Int := 86400000

/-- Local midnight of the day containing `t` (JS `new Date(ref)` + `setHours(h,m,s,0)`
keeps the local date; see modelling conventions above). -/
def startOfDay (t : Time) : Time := dayMs * (t.fdiv dayMs)

/-- Structure `TimeWindow` from CampaignTimeScheduler.ts. -/
structure TimeWindow where
  start : Time
  endTime : Time
  isToday : Bool
  remainingMinutes : Int
deriving DecidableEq, Repr

/-- The scheduling-relevant fields of the `Campaign` entity. `dailyStartTime` and
`dailyEndTime` are the validated `HH:MM:SS` strings, stored here as the parsed
millisecond-of-day value (`parseTimeToDate(str, ref)` is then `startOfDay ref + value`). -/
structure SchedCampaign where
  isAllDay : Bool
  dailyStartTime : Option Int
  dailyEndTime : Option Int
  minIntervalMinutes : Int
  maxIntervalMinutes : Int
deriving DecidableEq, Repr

/-- Modelled from the spec: the `hasTimeRestrictions` getter of the Campaign entity is
not under src/ (only its uses are). Per spec section 4.1, a campaign has a time
restriction exactly when the daily window is configured. -/
def hasTimeRestrictions (c : SchedCampaign) : Bool :=
  c.dailyStartTime.isSome && c.dailyEndTime.isSome

/-- CampaignTimeScheduler.getCurrentTimeWindow. -/
def getCurrentTimeWindow (c : SchedCampaign) (referenceTime : Time) : Option TimeWindow :=
  match c.dailyStartTime, c.dailyEndTime with
  | some sd, some ed =>
    let todayStart := startOfDay referenceTime + sd
    let todayEnd := startOfDay referenceTime + ed
    if todayEnd < todayStart then
      -- overnight window (e.g. 22:00 to 06:00)
      if todayStart ≤ referenceTime then
        some ⟨todayStart, todayEnd + dayMs, true,
          (todayEnd + dayMs - referenceTime).fdiv 60000⟩
      else if referenceTime ≤ todayEnd then
        some ⟨todayStart - dayMs, todayEnd, true,
          (todayEnd - referenceTime).fdiv 60000⟩
      else none
    else
      -- normal same-day window
      if todayStart ≤ referenceTime && referenceTime ≤ todayEnd then
        some ⟨todayStart, todayEnd, true, (todayEnd - referenceTime).fdiv 60000⟩
      else none
  | _, _ => none

/-- CampaignTimeScheduler.calculateWindowDuration: the source computes
`(end − start) / 60000` from `dailyStartTimeAsDate`/`dailyEndTimeAsDate` (two dates on
one common reference day, so only the millisecond-of-day difference matters), adds
24h worth of minutes when negative, and floors the result. -/
def calculateWindowDuration (c : SchedCampaign) : Int :=
  match c.dailyStartTime, c.dailyEndTime with
  | some sd, some ed =>
    if ed - sd < 0 then (ed - sd).fdiv 60000 + 24 * 60
    else (ed - sd).fdiv 60000
  | _, _ => 0

/-- CampaignTimeScheduler.getNextTimeWindow. Note that when both daily times are set
this always returns `some` window (today's if it has not started, else tomorrow's). -/
def getNextTimeWindow (c : SchedCampaign) (referenceTime : Time) : Option TimeWindow :=
  match c.dailyStartTime, c.dailyEndTime with
  | some sd, some ed =>
    let todayStart := startOfDay referenceTime + sd
    let todayEnd := startOfDay referenceTime + ed
    if referenceTime < todayStart then
      some ⟨todayStart,
        (if todayEnd < todayStart then todayEnd + dayMs else todayEnd),
        true, calculateWindowDuration c⟩
    else
      some ⟨todayStart + dayMs,
        todayEnd + (if todayEnd < todayStart then 2 else 1) * dayMs,
        false, calculateWindowDuration c⟩
  | _, _ => none

/-- CampaignTimeScheduler.isWithinWindow (closed interval on both sides). -/
def isWithinWindow (t : Time) (w : TimeWindow) : Bool :=
  w.start ≤ t && t ≤ w.endTime

/-- Structure `ScheduleResult` from CampaignTimeScheduler.ts. The `reason` strings of the source
are interpolated display-only diagnostics; the model keeps fixed stand-ins. -/
structure ScheduleResult where
  canScheduleNow : Bool
  nextAvailableTime : Time
  currentWindow : Option TimeWindow
  nextWindow : Option TimeWindow
  reason : String
deriving DecidableEq, Repr

/-- CampaignTimeScheduler.getScheduleInfo. -/
def getScheduleInfo (c : SchedCampaign) (referenceTime : Time) : ScheduleResult :=
  if c.isAllDay || !(hasTimeRestrictions c) then
    ⟨true, referenceTime, none, none, "Campaign runs 24/7"⟩
  else
    let currentWindow := getCurrentTimeWindow c referenceTime
    let nextWindow := getNextTimeWindow c referenceTime
    match currentWindow with
    | some w =>
      if isWithinWindow referenceTime w then
        ⟨true, referenceTime, some w, nextWindow, "Within time window"⟩
      else
        ⟨false, ((nextWindow.map (·.start)).getD referenceTime), none, nextWindow,
          "Outside time window"⟩
    | none =>
      ⟨false, ((nextWindow.map (·.start)).getD referenceTime), none, nextWindow,
        "Outside time window"⟩

/-- The `for` loop of CampaignTimeScheduler.scheduleJobsInWindow: pushes the cursor,
breaks as soon as the cursor is at or past the window end, and advances the cursor by
`randomInterval * 60 * 1000`. `k` is the index of the next unused random draw. -/
def windowGo (r : Nat → Int) (wEnd : Time) : Nat → Time → Nat → List Time
  | _, _, 0 => []
  | k, t, n + 1 =>
    if wEnd ≤ t then [] else t :: windowGo r wEnd (k + 1) (t + 60000 * r k) n

/-- CampaignTimeScheduler.scheduleJobsInWindow. `maxJobsInWindow` is
`Math.floor(windowDurationMinutes / avgInterval)` with `avgInterval = (min+max)/2`
real division, i.e. `⌊2·remaining / (min+max)⌋`; the `min+max = 0` branch models the
JS `Infinity`/`NaN` outcomes of dividing by zero (`Infinity` clamps to `maxJobs`,
`NaN` and `-Infinity` give zero loop iterations). -/
def scheduleJobsInWindow (c : SchedCampaign) (w : TimeWindow) (startTime : Time)
    (maxJobs : Int) (r : Nat → Int) (k : Nat) : List Time :=
  let s := c.minIntervalMinutes + c.maxIntervalMinutes
  let jobsToSchedule : Int :=
    if s = 0 then (if 0 < w.remainingMinutes then maxJobs else 0)
    else min maxJobs ((2 * w.remainingMinutes).fdiv s)
  windowGo r w.endTime k startTime jobsToSchedule.toNat

/-- The loop of CampaignTimeScheduler.scheduleJobsAllDay. -/
def allDayGo (r : Nat → Int) : Nat → Time → Nat → List Time
  | _, _, 0 => []
  | k, t, n + 1 => t :: allDayGo r (k + 1) (t + 60000 * r k) n

/-- CampaignTimeScheduler.scheduleJobsAllDay. -/
def scheduleJobsAllDay (c : SchedCampaign) (totalJobs : Nat) (startTime : Time)
    (r : Nat → Int) : List Time × Time :=
  let _ := c
  let scheduledTimes := allDayGo r 0 startTime totalJobs
  (scheduledTimes, scheduledTimes.getLast?.getD startTime)

/-- The in-window part of one iteration of the `while` loop of
CampaignTimeScheduler.scheduleJobsWithTimeWindows: when the cursor is inside a
window, append the jobs that fit and move the cursor to the window end; otherwise
leave list and cursor unchanged. -/
def loopStep (c : SchedCampaign) (r : Nat → Int) (total : Nat) (t : Time)
    (acc : List Time) : List Time × Time :=
  let info := getScheduleInfo c t
  if info.canScheduleNow then
    match info.currentWindow with
    | some w =>
      (acc ++ scheduleJobsInWindow c w t ((total : Int) - (acc.length : Int)) r acc.length,
        w.endTime)
    | none => (acc, t)
  else (acc, t)

/-- The `while (jobsScheduled < totalJobs)` loop of
CampaignTimeScheduler.scheduleJobsWithTimeWindows, with explicit fuel
(`none` = the loop did not finish within `fuel` iterations). Each iteration:
if inside a window, schedule as many jobs as fit and move the cursor to the window
end; then, if jobs remain, jump the cursor to the next window start, breaking with
the partial list when no next window exists. -/
def scheduleLoop (c : SchedCampaign) (r : Nat → Int) (total : Nat) :
    Nat → Time → List Time → Option (List Time)
  | 0, _, _ => none
  | fuel + 1, t, acc =>
    if acc.length < total then
      let step := loopStep c r total t acc
      if step.1.length < total then
        match getNextTimeWindow c step.2 with
        | some nw => scheduleLoop c r total fuel nw.start step.1
        | none => some step.1
      else scheduleLoop c r total fuel step.2 step.1
    else some acc

/-- CampaignTimeScheduler.scheduleJobsWithTimeWindows. -/
def scheduleJobsWithTimeWindows (c : SchedCampaign) (totalJobs : Nat) (startTime : Time)
    (r : Nat → Int) (fuel : Nat) : Option (List Time × Time) :=
  if c.isAllDay || !(hasTimeRestrictions c) then
    some (scheduleJobsAllDay c totalJobs startTime r)
  else
    (scheduleLoop c r totalJobs fuel startTime []).map
      (fun ts => (ts, ts.getLast?.getD startTime))

/-! ## Campaign state machine and progress reconciler
(CampaignService.ts, CampaignJob entity, CampaignJobService.retryFailedJob) -/

/-- Job status union of the CampaignJob entity and `CampaignJobUpdate.status`. -/
inductive JStatus where
  | pending
  | processing
  | completed
  | failed
  | cancelled
deriving DecidableEq, Repr

/-- Campaign lifecycle status values written by CampaignService. -/
inductive CStatus where
  | inactive
  | running
  | paused
  | completed
  | cancelled
deriving DecidableEq, Repr

/-- The CampaignJob entity (fields touched by the claims). -/
structure CJob where
  queueJobId : String
  status : JStatus
  scheduledAt : Time
  whatsappMessageId : Option String
  errorMessage : Option String
  processingStartedAt : Option Time
  processedAt : Option Time
  retryCount : Int
  maxRetries : Int
  contactPhone : String
deriving DecidableEq, Repr

/-- The Campaign entity (progress and lifecycle fields). -/
structure CampaignSt where
  status : CStatus
  totalContacts : Nat
  messagesSent : Nat
  messagesFailed : Nat
  messagesPending : Nat
  progressPercentage : ℚ
  nextSendAt : Option Time
  startedAt : Option Time
  completedAt : Option Time
  pausedAt : Option Time
  lastSent : Option Time
  estimatedCompletionAt : Option Time
  minIntervalMinutes : Int
  maxIntervalMinutes : Int
deriving DecidableEq, Repr

/-- One campaign together with its job rows (the rows of `campaign_jobs` with this
campaign id, in creation order). -/
structure SysState where
  campaign : CampaignSt
  jobs : List CJob
deriving DecidableEq, Repr

/-- Interface `CampaignJobUpdate` from CampaignService.ts. -/
structure JobUpdate where
  jobId : String
  status : JStatus
  whatsappMessageId : Option String
  errorMessage : Option String
  processingStartedAt : Option Time
  processedAt : Option Time
deriving DecidableEq, Repr

/-- JS `a || b` on optional values (new field value if provided, else the old one). -/
def jsOr (a b : Option α) : Option α :=
  match a with
  | some x => some x
  | none => b

/-- The per-job write of updateCampaignJobProgress: overwrite the status, keep old
result fields unless the update carries new ones. -/
def applyJobUpdate (u : JobUpdate) (j : CJob) : CJob :=
  { j with
    status := u.status
    whatsappMessageId := jsOr u.whatsappMessageId j.whatsappMessageId
    errorMessage := jsOr u.errorMessage j.errorMessage
    processingStartedAt := jsOr u.processingStartedAt j.processingStartedAt
    processedAt := jsOr u.processedAt j.processedAt }

/-- Model of `findOne` + `save`: update the first row matching the predicate, if any. -/
def updateFirst (p : α → Bool) (f : α → α) : List α → List α
  | [] => []
  | x :: xs => if p x then f x :: xs else x :: updateFirst p f xs

/-- Grouped count of jobs by one status (the `GROUP BY job.status` query). -/
def countStatus (s : JStatus) (jobs : List CJob) : Nat :=
  jobs.countP (fun j => j.status == s)

/-- Aggregation for `messagesSent`: jobs counted as sent (`completed`). -/
def aggSent (jobs : List CJob) : Nat := countStatus .completed jobs

/-- Aggregation for `messagesFailed`: jobs counted as failed. -/
def aggFailed (jobs : List CJob) : Nat := countStatus .failed jobs

/-- Aggregation for `messagesPending`: both `pending` and `processing` jobs count as
pending (the switch in updateCampaignJobProgress). `cancelled` jobs fall through
the switch and are counted nowhere. -/
def aggPending (jobs : List CJob) : Nat :=
  jobs.countP (fun j => j.status == .pending || j.status == .processing)

/-- The `scheduledAt` of the earliest still-pending job, if any
(the `findOne` ordered by `scheduledAt ASC`). -/
def nextPendingAt (jobs : List CJob) : Option Time :=
  minList ((jobs.filter (fun j => j.status == .pending)).map (·.scheduledAt))
where
  minList : List Time → Option Time
    | [] => none
    | x :: xs =>
      match minList xs with
      | none => some x
      | some m => some (min x m)

/-- Rounding `Math.round(x * 100) / 100` (round to two decimals; JS rounds half toward +∞,
as does Mathlib `round`). -/
def round2 (q : ℚ) : ℚ := (round (q * 100) : ℚ) / 100

/-- The campaign write of CampaignService.updateCampaignJobProgress: re-aggregated
counters, progress percentage, next send time, and the automatic transition to
`completed` when no pending work remains. -/
def reconciledCampaign (c : CampaignSt) (jobs : List CJob) (now : Time) : CampaignSt :=
  let messagesSent := aggSent jobs
  let messagesFailed := aggFailed jobs
  let messagesPending := aggPending jobs
  let totalProcessed := messagesSent + messagesFailed
  let pct : ℚ :=
    if 0 < c.totalContacts then ((totalProcessed : ℚ) / (c.totalContacts : ℚ)) * 100 else 0
  let base :=
    { c with
      messagesSent := messagesSent
      messagesFailed := messagesFailed
      messagesPending := messagesPending
      lastSent := some now
      progressPercentage := round2 pct
      nextSendAt := nextPendingAt jobs }
  if messagesPending = 0 then
    { base with status := .completed, completedAt := some now, nextSendAt := none }
  else base

/-- CampaignService.updateCampaignJobProgress (`reportJobOutcome`): inside one
transaction, write the job row found by `queueJobId` (skipped when not found), then
recompute the campaign aggregates from all job rows. -/
def updateCampaignJobProgress (s : SysState) (u : JobUpdate) (now : Time) : SysState :=
  let jobs := updateFirst (fun j => j.queueJobId == u.jobId) (applyJobUpdate u) s.jobs
  ⟨reconciledCampaign s.campaign jobs now, jobs⟩

/-- CampaignService.initializeCampaignProgress (named `initializeCampaignProgress`
in the source): set the counters for `totalJobs` scheduled jobs and mark the
campaign running. The estimated completion adds `totalJobs * (min+max)/2` minutes,
i.e. `totalJobs * (min+max) * 30000` ms exactly. -/
def initCampaignProgress (s : SysState) (totalJobs : Nat) (now : Time) : SysState :=
  { s with
    campaign :=
      { s.campaign with
        totalContacts := totalJobs
        messagesPending := totalJobs
        messagesSent := 0
        messagesFailed := 0
        progressPercentage := 0
        status := .running
        startedAt := some now
        estimatedCompletionAt :=
          some (now + (totalJobs : Int) * (s.campaign.minIntervalMinutes + s.campaign.maxIntervalMinutes) * 30000) } }

/-- CampaignService.cancelCampaign: invalid on a completed campaign (the transaction
rolls back with nothing written); otherwise flip every pending job to cancelled and
mark the campaign cancelled in the same transaction. -/
def cancelCampaign (s : SysState) (now : Time) : Except String SysState :=
  if s.campaign.status == .completed then
    .error "Cannot cancel a completed campaign"
  else
    .ok
      { campaign :=
          { s.campaign with status := .cancelled, completedAt := some now, nextSendAt := none }
        jobs := s.jobs.map (fun j => if j.status == .pending then { j with status := .cancelled } else j) }

/-- CampaignService.pauseCampaign. -/
def pauseCampaign (s : SysState) (now : Time) : Except String SysState :=
  if s.campaign.status == .running then
    .ok { s with campaign := { s.campaign with status := .paused, pausedAt := some now } }
  else .error "Only running campaigns can be paused"

/-- CampaignService.resumeCampaign. -/
def resumeCampaign (s : SysState) : Except String SysState :=
  if s.campaign.status == .paused then
    .ok { s with campaign := { s.campaign with status := .running, pausedAt := none } }
  else .error "Only paused campaigns can be resumed"

/-- The `canRetry` getter of the CampaignJob entity. -/
def canRetry (j : CJob) : Bool :=
  j.status == .failed && decide (j.retryCount < j.maxRetries)

/-- CampaignJobService.retryFailedJob: rejected unless `canRetry`; otherwise reset the
job to pending with `scheduledAt = now`, clear the result fields and increment
`retryCount` (the source writes `(job.retryCount || 0) + 1`; the column is an
integer defaulting to 0, so this is `retryCount + 1`). -/
def retryFailedJob (j : CJob) (now : Time) : Except String CJob :=
  if canRetry j then
    .ok
      { j with
        status := .pending
        errorMessage := none
        processingStartedAt := none
        processedAt := none
        retryCount := j.retryCount + 1
        scheduledAt := now }
  else .error "Job cannot be retried"

/-- A sequence of `reportJobOutcome` calls (each an update together with the wall
clock at which the transaction commits), applied in order. -/
def applyOutcomes (s : SysState) (l : List (JobUpdate × Time)) : SysState :=
  l.foldl (fun s p => updateCampaignJobProgress s p.1 p.2) s

/-- What cancelCampaign does on the success path: the campaign record changes only
in `status`, `completedAt` and `nextSendAt`; the job list keeps its length, pending
jobs become cancelled, all other jobs are untouched, and no pending job remains. -/
def CancelSpec (s s' : SysState) (now : Time) : Prop :=
  s'.campaign =
    { s.campaign with status := .cancelled, completedAt := some now, nextSendAt := none } ∧
  s'.jobs.length = s.jobs.length ∧
  (∀ i, (h : i < s.jobs.length) → (h2 : i < s'.jobs.length) →
    ((s.jobs[i].status = JStatus.pending → s'.jobs[i] = { s.jobs[i] with status := JStatus.cancelled }) ∧
     (s.jobs[i].status ≠ JStatus.pending → s'.jobs[i] = s.jobs[i]))) ∧
  (∀ j ∈ s'.jobs, j.status ≠ JStatus.pending)

/-! ### Concrete example inputs used by counterexamples and witnesses -/

/-- Overnight-window campaign 22:00:00 to 06:00:00 (ms of day 79200000 and 21600000). -/
def cOvernight : SchedCampaign := ⟨false, some 79200000, some 21600000, 30, 120⟩

/-- Window-restricted campaign whose daily window 10:00:00 to 10:10:00 (10 minutes)
is shorter than the 30-minute average interval, so no window ever fits a job. -/
def c3Bad : SchedCampaign := ⟨false, some 36000000, some 36600000, 30, 30⟩

/-- All-day campaign with fixed 30 minute pacing. -/
def cAllDay : SchedCampaign := ⟨true, none, none, 30, 30⟩

/-- All-day campaign with `minIntervalMinutes = maxIntervalMinutes = 0` (accepted by
`createCampaign`, which only substitutes the defaults when the DTO omits the field). -/
def c9Bad : SchedCampaign := ⟨true, none, none, 0, 0⟩

/-- Interval-draw stream that always draws 0 (the only draw in `[0, 0]`). -/
def rZero : Nat → Int := fun _ => 0

/-- Interval-draw stream that always draws 30. -/
def r30 : Nat → Int := fun _ => 30

/-- Window-restricted campaign with 4 minute pacing and the same 10-minute window. -/
def cFour : SchedCampaign := ⟨false, some 36000000, some 36600000, 4, 4⟩

/-- A 10-minute time window starting at 10:00:00 of day 0, as produced for `cFour`. -/
def wTen : TimeWindow := ⟨36000000, 36600000, true, 10⟩

def jobA : CJob := ⟨"a", .pending, 100, none, none, none, none, 0, 3, "100001"⟩

def jobB : CJob := ⟨"b", .pending, 200, none, none, none, none, 0, 3, "100002"⟩

def jobProc : CJob := ⟨"c", .processing, 300, none, none, none, none, 0, 3, "100003"⟩

def jobFailed : CJob := ⟨"d", .failed, 400, none, none, some 50, some 60, 1, 3, "100004"⟩

def campRunning2 : CampaignSt :=
  ⟨.running, 2, 0, 0, 2, 0, none, some 0, none, none, none, none, 30, 120⟩

def campRunning1 : CampaignSt :=
  ⟨.running, 1, 0, 0, 1, 0, none, some 0, none, none, none, none, 30, 120⟩

/-- A running campaign with two pending jobs. -/
def stTwoPending : SysState := ⟨campRunning2, [jobA, jobB]⟩

/-- A running campaign with one pending job. -/
def stOnePending : SysState := ⟨campRunning1, [jobA]⟩

/-- A running campaign with one pending and one processing job. -/
def stWithProcessing : SysState := ⟨campRunning2, [jobA, jobProc]⟩

/-- A terminal success outcome for job `"a"`. -/
def updA : JobUpdate := ⟨"a", .completed, some "wamid1", none, some 90, some 95⟩

/-! ## Helper lemmas -/

theorem updateFirst_length (p : α → Bool) (f : α → α) :
    ∀ l : List α, (updateFirst p f l).length = l.length := by
  intro l
  induction l with
  | nil => rfl
  | cons x xs ih =>
    unfold updateFirst
    by_cases h : p x <;> simp [h, ih]

theorem aggPending_split (jobs : List CJob) :
    aggPending jobs = countStatus .pending jobs + countStatus .processing jobs := by
  induction jobs with
  | nil => rfl
  | cons j js ih =>
    simp only [aggPending, countStatus, List.countP_cons] at ih ⊢
    cases h : j.status <;> simp [h] <;> omega

theorem count_partition (jobs : List CJob) :
    aggSent jobs + aggFailed jobs + aggPending jobs + countStatus .cancelled jobs
      = jobs.length := by
  induction jobs with
  | nil => rfl
  | cons j js ih =>
    simp only [aggSent, aggFailed, aggPending, countStatus, List.countP_cons,
      List.length_cons] at ih ⊢
    cases h : j.status <;> simp [h] <;> omega

theorem reconciledCampaign_messagesSent (c : CampaignSt) (jobs : List CJob) (now : Time) :
    (reconciledCampaign c jobs now).messagesSent = aggSent jobs := by
  unfold reconciledCampaign
  by_cases h : aggPending jobs = 0 <;> simp [h]

theorem reconciledCampaign_messagesFailed (c : CampaignSt) (jobs : List CJob) (now : Time) :
    (reconciledCampaign c jobs now).messagesFailed = aggFailed jobs := by
  unfold reconciledCampaign
  by_cases h : aggPending jobs = 0 <;> simp [h]

theorem reconciledCampaign_messagesPending (c : CampaignSt) (jobs : List CJob) (now : Time) :
    (reconciledCampaign c jobs now).messagesPending = aggPending jobs := by
  unfold reconciledCampaign
  by_cases h : aggPending jobs = 0 <;> simp [h]

theorem reconciledCampaign_totalContacts (c : CampaignSt) (jobs : List CJob) (now : Time) :
    (reconciledCampaign c jobs now).totalContacts = c.totalContacts := by
  unfold reconciledCampaign
  by_cases h : aggPending jobs = 0 <;> simp [h]

theorem reconciledCampaign_progressPercentage (c : CampaignSt) (jobs : List CJob) (now : Time) :
    (reconciledCampaign c jobs now).progressPercentage =
      round2 (if 0 < c.totalContacts
        then ((aggSent jobs + aggFailed jobs : Nat) : ℚ) / (c.totalContacts : ℚ) * 100
        else 0) := by
  unfold reconciledCampaign
  by_cases h : aggPending jobs = 0 <;> by_cases h2 : 0 < c.totalContacts <;> simp [h, h2]

theorem reconciledCampaign_status (c : CampaignSt) (jobs : List CJob) (now : Time) :
    (reconciledCampaign c jobs now).status =
      (if aggPending jobs = 0 then CStatus.completed else c.status) := by
  unfold reconciledCampaign
  by_cases h : aggPending jobs = 0 <;> simp [h]

theorem reconciledCampaign_completedAt (c : CampaignSt) (jobs : List CJob) (now : Time) :
    (reconciledCampaign c jobs now).completedAt =
      (if aggPending jobs = 0 then some now else c.completedAt) := by
  unfold reconciledCampaign
  by_cases h : aggPending jobs = 0 <;> simp [h]

theorem reconciledCampaign_nextSendAt (c : CampaignSt) (jobs : List CJob) (now : Time) :
    (reconciledCampaign c jobs now).nextSendAt =
      (if aggPending jobs = 0 then none else nextPendingAt jobs) := by
  unfold reconciledCampaign
  by_cases h : aggPending jobs = 0 <;> simp [h]

theorem updateProgress_jobs (s : SysState) (u : JobUpdate) (now : Time) :
    (updateCampaignJobProgress s u now).jobs =
      updateFirst (fun j => j.queueJobId == u.jobId) (applyJobUpdate u) s.jobs := rfl

theorem updateProgress_campaign (s : SysState) (u : JobUpdate) (now : Time) :
    (updateCampaignJobProgress s u now).campaign =
      reconciledCampaign s.campaign (updateCampaignJobProgress s u now).jobs now := rfl

/-! ## Claim theorems -/

/-- C5: for the overnight window 22:00 to 06:00 (campaign `cOvernight`), taking day 1
as the reference day (an instant `d` ms into day `k` is `k * 86400000 + d`):
at 23:00 the campaign can schedule now and the current window spans today 22:00 to
tomorrow 06:00 with 420 minutes remaining; at 02:00 it can schedule now and the
current window spans yesterday 22:00 to today 06:00 with 240 minutes remaining;
at 12:00 it cannot schedule now and the next available time is today 22:00; in each
inside case the remaining minutes equal `floor((windowEnd − referenceTime)/60000)`. -/
theorem c5_overnight_schedule_info :
    (getScheduleInfo cOvernight 169200000).canScheduleNow = true ∧
    (getScheduleInfo cOvernight 169200000).currentWindow =
      some ⟨165600000, 194400000, true, 420⟩ ∧
    (getScheduleInfo cOvernight 93600000).canScheduleNow = true ∧
    (getScheduleInfo cOvernight 93600000).currentWindow =
      some ⟨79200000, 108000000, true, 240⟩ ∧
    (getScheduleInfo cOvernight 129600000).canScheduleNow = false ∧
    (getScheduleInfo cOvernight 129600000).currentWindow = none ∧
    (getScheduleInfo cOvernight 129600000).nextAvailableTime = 165600000 ∧
    ((getScheduleInfo cOvernight 129600000).nextWindow.map (·.start)) = some 165600000 ∧
    (420 : Int) = ((194400000 : Int) - 169200000).fdiv 60000 ∧
    (240 : Int) = ((108000000 : Int) - 93600000).fdiv 60000 := by
  decide

/-- C7: cancelCampaign fails with an error (and, the transaction being rolled back,
no state change) when the campaign is already completed; otherwise it succeeds,
flips exactly the pending jobs to cancelled, leaves all other jobs unchanged, and
changes only `status`, `completedAt` and `nextSendAt` on the campaign. -/
theorem c7_cancel_semantics (s : SysState) (now : Time) :
    (s.campaign.status = CStatus.completed →
      cancelCampaign s now = Except.error "Cannot cancel a completed campaign") ∧
    (s.campaign.status ≠ CStatus.completed →
      ∃ s', cancelCampaign s now = Except.ok s' ∧ CancelSpec s s' now) := by
  constructor
  · intro h
    simp [cancelCampaign, h]
  · intro h
    refine ⟨⟨{ s.campaign with status := .cancelled, completedAt := some now, nextSendAt := none },
        s.jobs.map (fun j => if j.status == JStatus.pending then { j with status := JStatus.cancelled } else j)⟩,
      ?_, rfl, by simp, ?_, ?_⟩
    · simp [cancelCampaign, h]
    · intro i hi hi2
      constructor
      · intro hp
        simp [hp]
      · intro hp
        simp [hp]
    · intro j hj
      rcases List.mem_map.mp hj with ⟨x, hx, rfl⟩
      by_cases hp : x.status = JStatus.pending <;> simp [hp]

/-- Witness for C7 at a concrete running campaign with two pending jobs. -/
theorem c7_cancel_semantics_witness :
    ∃ s', cancelCampaign stTwoPending 5 = Except.ok s' ∧ CancelSpec stTwoPending s' 5 :=
  (c7_cancel_semantics stTwoPending 5).2 (by decide)

/-- C8: a retry is accepted iff `canRetry`, i.e. iff the job failed with
`retryCount < maxRetries`; on acceptance the job is reset to pending with
`scheduledAt = now` and `retryCount` incremented by exactly one (result fields
cleared); otherwise the call is rejected with an error and, the operation being a
rejected write, the job is unchanged. -/
theorem c8_retry_eligibility (j : CJob) (now : Time) :
    (canRetry j = true ↔ (j.status = JStatus.failed ∧ j.retryCount < j.maxRetries)) ∧
    (canRetry j = true →
      retryFailedJob j now = Except.ok
        { j with
          status := JStatus.pending
          errorMessage := none
          processingStartedAt := none
          processedAt := none
          retryCount := j.retryCount + 1
          scheduledAt := now }) ∧
    (canRetry j = false → retryFailedJob j now = Except.error "Job cannot be retried") := by
  refine ⟨?_, ?_, ?_⟩
  · simp [canRetry]
  · intro h
    simp [retryFailedJob, h]
  · intro h
    simp [retryFailedJob, h]

/-- Witness for C8 at a concrete failed job with one prior retry. -/
theorem c8_retry_eligibility_witness :
    canRetry jobFailed = true ∧
    retryFailedJob jobFailed 7 = Except.ok
      { jobFailed with
        status := JStatus.pending
        errorMessage := none
        processingStartedAt := none
        processedAt := none
        retryCount := jobFailed.retryCount + 1
        scheduledAt := 7 } :=
  ⟨by decide, (c8_retry_eligibility jobFailed 7).2.1 (by decide)⟩

/-- C10: in every reconciliation, `messagesPending` counts processing jobs together
with pending jobs; hence whenever some job of the campaign is still processing the
reconciliation leaves the campaign status unchanged — in particular it never
transitions the campaign to completed while a job is processing. -/
theorem c10_processing_counts_as_pending (s : SysState) (u : JobUpdate) (now : Time) :
    (updateCampaignJobProgress s u now).campaign.messagesPending =
      countStatus .pending (updateCampaignJobProgress s u now).jobs
        + countStatus .processing (updateCampaignJobProgress s u now).jobs ∧
    ((∃ j ∈ (updateCampaignJobProgress s u now).jobs, j.status = JStatus.processing) →
      (updateCampaignJobProgress s u now).campaign.status = s.campaign.status) := by
  constructor
  · rw [updateProgress_campaign, reconciledCampaign_messagesPending, aggPending_split]
  · rintro ⟨j, hj, hpr⟩
    have hpos : 0 < aggPending (updateCampaignJobProgress s u now).jobs := by
      unfold aggPending
      refine List.countP_pos_iff.mpr ⟨j, hj, ?_⟩
      simp [hpr]
    rw [updateProgress_campaign, reconciledCampaign_status, if_neg (by omega)]

/-- Witness for C10 at a concrete state with a processing job, reporting the other
job as completed. -/
theorem c10_processing_counts_as_pending_witness :
    (∃ j ∈ (updateCampaignJobProgress stWithProcessing updA 9).jobs,
      j.status = JStatus.processing) ∧
    (updateCampaignJobProgress stWithProcessing updA 9).campaign.status =
      stWithProcessing.campaign.status :=
  ⟨⟨jobProc, by decide, by decide⟩,
    (c10_processing_counts_as_pending stWithProcessing updA 9).2
      ⟨jobProc, by decide, by decide⟩⟩

theorem jsOr_idem (a b : Option α) : jsOr a (jsOr a b) = jsOr a b := by
  cases a <;> rfl

theorem applyJobUpdate_idem (u : JobUpdate) (j : CJob) :
    applyJobUpdate u (applyJobUpdate u j) = applyJobUpdate u j := by
  simp [applyJobUpdate, jsOr_idem]

theorem applyJobUpdate_queueJobId (u : JobUpdate) (j : CJob) :
    (applyJobUpdate u j).queueJobId = j.queueJobId := rfl

theorem updateFirst_idem (p : α → Bool) (f : α → α)
    (hp : ∀ x, p (f x) = p x) (hf : ∀ x, f (f x) = f x) :
    ∀ l : List α, updateFirst p f (updateFirst p f l) = updateFirst p f l := by
  intro l
  induction l with
  | nil => rfl
  | cons x xs ih =>
    by_cases h : p x
    · simp [updateFirst, h, hp, hf]
    · simp [updateFirst, h, ih]

/-- C6: applying the same terminal job update twice leaves the campaign counters
`messagesSent`, `messagesFailed`, `messagesPending` and `progressPercentage` after
the second application identical to their values after the first, for every
campaign state and job set (re-aggregation counts by status, not by delta). -/
theorem c6_terminal_update_idempotent (s : SysState) (u : JobUpdate) (n1 n2 : Time)
    (_hterm : u.status = JStatus.completed ∨ u.status = JStatus.failed) :
    ((updateCampaignJobProgress (updateCampaignJobProgress s u n1) u n2).campaign.messagesSent
        = (updateCampaignJobProgress s u n1).campaign.messagesSent) ∧
    ((updateCampaignJobProgress (updateCampaignJobProgress s u n1) u n2).campaign.messagesFailed
        = (updateCampaignJobProgress s u n1).campaign.messagesFailed) ∧
    ((updateCampaignJobProgress (updateCampaignJobProgress s u n1) u n2).campaign.messagesPending
        = (updateCampaignJobProgress s u n1).campaign.messagesPending) ∧
    ((updateCampaignJobProgress (updateCampaignJobProgress s u n1) u n2).campaign.progressPercentage
        = (updateCampaignJobProgress s u n1).campaign.progressPercentage) := by
  have hjobs : (updateCampaignJobProgress (updateCampaignJobProgress s u n1) u n2).jobs
      = (updateCampaignJobProgress s u n1).jobs := by
    rw [updateProgress_jobs, updateProgress_jobs]
    exact updateFirst_idem _ _
      (fun x => by rw [applyJobUpdate_queueJobId]) (applyJobUpdate_idem u) s.jobs
  have htc : (updateCampaignJobProgress s u n1).campaign.totalContacts
      = s.campaign.totalContacts := by
    rw [updateProgress_campaign, reconciledCampaign_totalContacts]
  refine ⟨?_, ?_, ?_, ?_⟩
  · rw [updateProgress_campaign (s := updateCampaignJobProgress s u n1),
      reconciledCampaign_messagesSent, hjobs,
      updateProgress_campaign (s := s), reconciledCampaign_messagesSent]
  · rw [updateProgress_campaign (s := updateCampaignJobProgress s u n1),
      reconciledCampaign_messagesFailed, hjobs,
      updateProgress_campaign (s := s), reconciledCampaign_messagesFailed]
  · rw [updateProgress_campaign (s := updateCampaignJobProgress s u n1),
      reconciledCampaign_messagesPending, hjobs,
      updateProgress_campaign (s := s), reconciledCampaign_messagesPending]
  · rw [updateProgress_campaign (s := updateCampaignJobProgress s u n1),
      reconciledCampaign_progressPercentage, hjobs, htc,
      updateProgress_campaign (s := s), reconciledCampaign_progressPercentage]

/-- Witness for C6: the duplicate success report for job `"a"` leaves the four
counters of the single-job campaign unchanged. -/
theorem c6_terminal_update_idempotent_witness :
    ((updateCampaignJobProgress (updateCampaignJobProgress stOnePending updA 1) updA 2).campaign.messagesSent
        = (updateCampaignJobProgress stOnePending updA 1).campaign.messagesSent) ∧
    ((updateCampaignJobProgress (updateCampaignJobProgress stOnePending updA 1) updA 2).campaign.messagesFailed
        = (updateCampaignJobProgress stOnePending updA 1).campaign.messagesFailed) ∧
    ((updateCampaignJobProgress (updateCampaignJobProgress stOnePending updA 1) updA 2).campaign.messagesPending
        = (updateCampaignJobProgress stOnePending updA 1).campaign.messagesPending) ∧
    ((updateCampaignJobProgress (updateCampaignJobProgress stOnePending updA 1) updA 2).campaign.progressPercentage
        = (updateCampaignJobProgress stOnePending updA 1).campaign.progressPercentage) :=
  c6_terminal_update_idempotent stOnePending updA 1 2 (Or.inl rfl)

theorem applyOutcomes_totalContacts (l : List (JobUpdate × Time)) :
    ∀ s : SysState, (applyOutcomes s l).campaign.totalContacts = s.campaign.totalContacts := by
  induction l with
  | nil => intro s; rfl
  | cons p ps ih =>
    intro s
    show (applyOutcomes (updateCampaignJobProgress s p.1 p.2) ps).campaign.totalContacts = _
    rw [ih, updateProgress_campaign, reconciledCampaign_totalContacts]

theorem applyOutcomes_jobs_length (l : List (JobUpdate × Time)) :
    ∀ s : SysState, (applyOutcomes s l).jobs.length = s.jobs.length := by
  induction l with
  | nil => intro s; rfl
  | cons p ps ih =>
    intro s
    show (applyOutcomes (updateCampaignJobProgress s p.1 p.2) ps).jobs.length = _
    rw [ih, updateProgress_jobs, updateFirst_length]

theorem applyOutcomes_concat (s : SysState) (l : List (JobUpdate × Time))
    (p : JobUpdate × Time) :
    applyOutcomes s (l ++ [p]) = updateCampaignJobProgress (applyOutcomes s l) p.1 p.2 := by
  simp [applyOutcomes, List.foldl_append]

theorem aggPending_eq_zero_of_terminal (jobs : List CJob)
    (h : ∀ j ∈ jobs, j.status = JStatus.completed ∨ j.status = JStatus.failed) :
    aggPending jobs = 0 := by
  unfold aggPending
  rw [List.countP_eq_zero]
  intro j hj
  rcases h j hj with h1 | h1 <;> simp [h1]

theorem countCancelled_eq_zero_of_terminal (jobs : List CJob)
    (h : ∀ j ∈ jobs, j.status = JStatus.completed ∨ j.status = JStatus.failed) :
    countStatus .cancelled jobs = 0 := by
  unfold countStatus
  rw [List.countP_eq_zero]
  intro j hj
  rcases h j hj with h1 | h1 <;> simp [h1]

/-- C1: starting from the counters installed by the initialization that accompanies
campaign start (`totalContacts` = number of job rows), any nonempty sequence of
`reportJobOutcome` calls whose net effect leaves every job of the campaign in a
terminal status (completed or failed) ends with
`messagesSent + messagesFailed = totalContacts`, `messagesPending = 0`,
campaign status completed, `completedAt` set and `nextSendAt = null`. -/
theorem c1_completion_invariant (s0 : SysState) (now0 : Time)
    (updates : List (JobUpdate × Time)) (hne : updates ≠ [])
    (hterm : ∀ j ∈ (applyOutcomes (initCampaignProgress s0 s0.jobs.length now0) updates).jobs,
      j.status = JStatus.completed ∨ j.status = JStatus.failed) :
    ((applyOutcomes (initCampaignProgress s0 s0.jobs.length now0) updates).campaign.messagesSent
      + (applyOutcomes (initCampaignProgress s0 s0.jobs.length now0) updates).campaign.messagesFailed
      = (applyOutcomes (initCampaignProgress s0 s0.jobs.length now0) updates).campaign.totalContacts) ∧
    (applyOutcomes (initCampaignProgress s0 s0.jobs.length now0) updates).campaign.messagesPending = 0 ∧
    (applyOutcomes (initCampaignProgress s0 s0.jobs.length now0) updates).campaign.status
      = CStatus.completed ∧
    (applyOutcomes (initCampaignProgress s0 s0.jobs.length now0) updates).campaign.completedAt.isSome
      = true ∧
    (applyOutcomes (initCampaignProgress s0 s0.jobs.length now0) updates).campaign.nextSendAt
      = none := by
  rcases (List.eq_nil_or_concat updates).resolve_left hne with ⟨l, p, rfl⟩
  rw [List.concat_eq_append] at hterm ⊢
  set sInit := initCampaignProgress s0 s0.jobs.length now0 with hInit
  rw [applyOutcomes_concat] at hterm ⊢
  set sMid := applyOutcomes sInit l with hMid
  set J := (updateCampaignJobProgress sMid p.1 p.2).jobs with hJ
  have hpend : aggPending J = 0 := aggPending_eq_zero_of_terminal J hterm
  have hcanc : countStatus .cancelled J = 0 := countCancelled_eq_zero_of_terminal J hterm
  have hlen : J.length = s0.jobs.length := by
    rw [hJ, updateProgress_jobs, updateFirst_length, hMid, applyOutcomes_jobs_length]
    rfl
  have htc : sMid.campaign.totalContacts = s0.jobs.length := by
    rw [hMid, applyOutcomes_totalContacts]
    rfl
  have hsum := count_partition J
  refine ⟨?_, ?_, ?_, ?_, ?_⟩
  · rw [updateProgress_campaign, reconciledCampaign_messagesSent,
      reconciledCampaign_messagesFailed, reconciledCampaign_totalContacts, ← hJ, htc]
    omega
  · rw [updateProgress_campaign, reconciledCampaign_messagesPending, ← hJ, hpend]
  · rw [updateProgress_campaign, reconciledCampaign_status, ← hJ, if_pos hpend]
  · rw [updateProgress_campaign, reconciledCampaign_completedAt, ← hJ, if_pos hpend]
    rfl
  · rw [updateProgress_campaign, reconciledCampaign_nextSendAt, ← hJ, if_pos hpend]

/-- Witness for C1: one pending job driven to completed by a single report. -/
theorem c1_completion_invariant_witness :
    ((applyOutcomes (initCampaignProgress stOnePending stOnePending.jobs.length 5)
        [(updA, 10)]).campaign.messagesSent
      + (applyOutcomes (initCampaignProgress stOnePending stOnePending.jobs.length 5)
        [(updA, 10)]).campaign.messagesFailed
      = (applyOutcomes (initCampaignProgress stOnePending stOnePending.jobs.length 5)
        [(updA, 10)]).campaign.totalContacts) ∧
    (applyOutcomes (initCampaignProgress stOnePending stOnePending.jobs.length 5)
      [(updA, 10)]).campaign.messagesPending = 0 ∧
    (applyOutcomes (initCampaignProgress stOnePending stOnePending.jobs.length 5)
      [(updA, 10)]).campaign.status = CStatus.completed ∧
    (applyOutcomes (initCampaignProgress stOnePending stOnePending.jobs.length 5)
      [(updA, 10)]).campaign.completedAt.isSome = true ∧
    (applyOutcomes (initCampaignProgress stOnePending stOnePending.jobs.length 5)
      [(updA, 10)]).campaign.nextSendAt = none :=
  c1_completion_invariant stOnePending 5 [(updA, 10)] (by decide) (by decide)

/-- C2 counterexample: start with a running campaign of two pending jobs
(`totalContacts = 2`, counters 0/0/2, so the equation holds), cancel the campaign
(both jobs flip to cancelled; the stored counters are untouched), then let one
stale worker callback report job `"a"` as completed. The re-aggregation counts the
cancelled job `"b"` in no bucket, so afterwards
`messagesSent + messagesFailed + messagesPending = 1 ≠ 2 = totalContacts`. -/
theorem c2_counterexample :
    (stTwoPending.campaign.messagesSent + stTwoPending.campaign.messagesFailed
        + stTwoPending.campaign.messagesPending = stTwoPending.campaign.totalContacts) ∧
    ¬ ((updateCampaignJobProgress ((cancelCampaign stTwoPending 5).toOption.getD stTwoPending)
          updA 6).campaign.messagesSent
        + (updateCampaignJobProgress ((cancelCampaign stTwoPending 5).toOption.getD stTwoPending)
          updA 6).campaign.messagesFailed
        + (updateCampaignJobProgress ((cancelCampaign stTwoPending 5).toOption.getD stTwoPending)
          updA 6).campaign.messagesPending
        = (updateCampaignJobProgress ((cancelCampaign stTwoPending 5).toOption.getD stTwoPending)
          updA 6).campaign.totalContacts) := by
  constructor
  · decide
  · decide

/-- C2 amended: after initialization, each reconciliation re-establishes
`messagesSent + messagesFailed + messagesPending + (number of cancelled jobs)
= totalContacts` whenever `totalContacts` equals the number of job rows; hence the
original equation holds exactly as long as no job of the campaign is cancelled.
The explicit lifecycle operations pause, resume and cancel never modify the
counters or `totalContacts` themselves (retryFailedJob does not touch the campaign
row at all), so the only operation that breaks the original equation is a
reconciliation that runs after cancelCampaign has flipped pending jobs to
cancelled — by the amount `countStatus cancelled`. -/
theorem c2_counter_accounting (s : SysState) (u : JobUpdate) (now : Time)
    (htc : s.campaign.totalContacts = s.jobs.length) :
    ((updateCampaignJobProgress s u now).campaign.messagesSent
      + (updateCampaignJobProgress s u now).campaign.messagesFailed
      + (updateCampaignJobProgress s u now).campaign.messagesPending
      + countStatus .cancelled (updateCampaignJobProgress s u now).jobs
      = (updateCampaignJobProgress s u now).campaign.totalContacts) ∧
    (∀ s2, pauseCampaign s now = Except.ok s2 →
      s2.campaign.messagesSent = s.campaign.messagesSent ∧
      s2.campaign.messagesFailed = s.campaign.messagesFailed ∧
      s2.campaign.messagesPending = s.campaign.messagesPending ∧
      s2.campaign.totalContacts = s.campaign.totalContacts) ∧
    (∀ s2, resumeCampaign s = Except.ok s2 →
      s2.campaign.messagesSent = s.campaign.messagesSent ∧
      s2.campaign.messagesFailed = s.campaign.messagesFailed ∧
      s2.campaign.messagesPending = s.campaign.messagesPending ∧
      s2.campaign.totalContacts = s.campaign.totalContacts) ∧
    (∀ s2, cancelCampaign s now = Except.ok s2 →
      s2.campaign.messagesSent = s.campaign.messagesSent ∧
      s2.campaign.messagesFailed = s.campaign.messagesFailed ∧
      s2.campaign.messagesPending = s.campaign.messagesPending ∧
      s2.campaign.totalContacts = s.campaign.totalContacts) := by
  refine ⟨?_, ?_, ?_, ?_⟩
  · rw [updateProgress_campaign, reconciledCampaign_messagesSent,
      reconciledCampaign_messagesFailed, reconciledCampaign_messagesPending,
      reconciledCampaign_totalContacts, htc]
    have hsum := count_partition (updateCampaignJobProgress s u now).jobs
    have hlen : (updateCampaignJobProgress s u now).jobs.length = s.jobs.length := by
      rw [updateProgress_jobs, updateFirst_length]
    omega
  · intro s2 h2
    unfold pauseCampaign at h2
    by_cases h : s.campaign.status == CStatus.running <;> simp [h] at h2
    subst h2
    exact ⟨rfl, rfl, rfl, rfl⟩
  · intro s2 h2
    unfold resumeCampaign at h2
    by_cases h : s.campaign.status == CStatus.paused <;> simp [h] at h2
    subst h2
    exact ⟨rfl, rfl, rfl, rfl⟩
  · intro s2 h2
    unfold cancelCampaign at h2
    by_cases h : s.campaign.status == CStatus.completed <;> simp [h] at h2
    subst h2
    exact ⟨rfl, rfl, rfl, rfl⟩

/-- Witness for C2 amended: reporting one job of the two-pending-job campaign as
completed re-establishes the cancelled-inclusive accounting equation, and the
lifecycle transitions preserve the raw counters. -/
theorem c2_counter_accounting_witness :
    ((updateCampaignJobProgress stTwoPending updA 6).campaign.messagesSent
      + (updateCampaignJobProgress stTwoPending updA 6).campaign.messagesFailed
      + (updateCampaignJobProgress stTwoPending updA 6).campaign.messagesPending
      + countStatus .cancelled (updateCampaignJobProgress stTwoPending updA 6).jobs
      = (updateCampaignJobProgress stTwoPending updA 6).campaign.totalContacts) ∧
    (∀ s2, pauseCampaign stTwoPending 6 = Except.ok s2 →
      s2.campaign.messagesSent = stTwoPending.campaign.messagesSent ∧
      s2.campaign.messagesFailed = stTwoPending.campaign.messagesFailed ∧
      s2.campaign.messagesPending = stTwoPending.campaign.messagesPending ∧
      s2.campaign.totalContacts = stTwoPending.campaign.totalContacts) ∧
    (∀ s2, resumeCampaign stTwoPending = Except.ok s2 →
      s2.campaign.messagesSent = stTwoPending.campaign.messagesSent ∧
      s2.campaign.messagesFailed = stTwoPending.campaign.messagesFailed ∧
      s2.campaign.messagesPending = stTwoPending.campaign.messagesPending ∧
      s2.campaign.totalContacts = stTwoPending.campaign.totalContacts) ∧
    (∀ s2, cancelCampaign stTwoPending 6 = Except.ok s2 →
      s2.campaign.messagesSent = stTwoPending.campaign.messagesSent ∧
      s2.campaign.messagesFailed = stTwoPending.campaign.messagesFailed ∧
      s2.campaign.messagesPending = stTwoPending.campaign.messagesPending ∧
      s2.campaign.totalContacts = stTwoPending.campaign.totalContacts) :=
  c2_counter_accounting stTwoPending updA 6 (by decide)

theorem windowGo_mem_lt (r : Nat → Int) (wEnd : Time) :
    ∀ (n : Nat) (k : Nat) (t : Time), ∀ x ∈ windowGo r wEnd k t n, x < wEnd := by
  intro n
  induction n with
  | zero =>
    intro k t x hx
    simp [windowGo] at hx
  | succ m ih =>
    intro k t x hx
    by_cases h : wEnd ≤ t
    · simp [windowGo, h] at hx
    · simp only [windowGo, h, if_false, List.mem_cons] at hx
      rcases hx with rfl | hx
      · exact not_le.mp h
      · exact ih _ _ x hx

theorem windowGo_length_le (r : Nat → Int) (wEnd : Time) :
    ∀ (n : Nat) (k : Nat) (t : Time), (windowGo r wEnd k t n).length ≤ n := by
  intro n
  induction n with
  | zero => intro k t; simp [windowGo]
  | succ m ih =>
    intro k t
    by_cases h : wEnd ≤ t
    · simp [windowGo, h]
    · simp only [windowGo, h, if_false, List.length_cons]
      exact Nat.succ_le_succ (ih _ _)

theorem scheduleJobsInWindow_mem_lt (c : SchedCampaign) (w : TimeWindow) (t : Time)
    (cap : Int) (r : Nat → Int) (k : Nat) :
    ∀ x ∈ scheduleJobsInWindow c w t cap r k, x < w.endTime := by
  intro x hx
  unfold scheduleJobsInWindow at hx
  exact windowGo_mem_lt r w.endTime _ _ _ x hx

theorem scheduleJobsInWindow_length_le (c : SchedCampaign) (w : TimeWindow) (t : Time)
    (cap : Int) (r : Nat → Int) (k : Nat) :
    (scheduleJobsInWindow c w t cap r k).length ≤ cap.toNat := by
  unfold scheduleJobsInWindow
  refine le_trans (windowGo_length_le r w.endTime _ k t) ?_
  split_ifs with h1 h2
  · exact le_refl _
  · simp
  · exact Int.toNat_le_toNat (min_le_left _ _)

theorem loopStep_length_le (c : SchedCampaign) (r : Nat → Int) (total : Nat) (t : Time)
    (acc : List Time) (h : acc.length ≤ total) :
    (loopStep c r total t acc).1.length ≤ total := by
  unfold loopStep
  by_cases hcan : (getScheduleInfo c t).canScheduleNow
  · simp only [hcan, if_true]
    cases hcw : (getScheduleInfo c t).currentWindow with
    | none => exact h
    | some w =>
      simp only [List.length_append]
      have h2 := scheduleJobsInWindow_length_le c w t ((total : Int) - (acc.length : Int)) r acc.length
      have h3 : (((total : Int) - (acc.length : Int))).toNat = total - acc.length := by omega
      omega
  · simp only [hcan]
    exact h

theorem scheduleLoop_length_le (c : SchedCampaign) (r : Nat → Int) (total : Nat) :
    ∀ (fuel : Nat) (t : Time) (acc : List Time) (res : List Time),
      acc.length ≤ total → scheduleLoop c r total fuel t acc = some res →
      res.length ≤ total := by
  intro fuel
  induction fuel with
  | zero =>
    intro t acc res h hres
    simp [scheduleLoop] at hres
  | succ m ih =>
    intro t acc res h hres
    rw [scheduleLoop] at hres
    by_cases hlt : acc.length < total
    · rw [if_pos hlt] at hres
      have hse : (loopStep c r total t acc).1.length ≤ total :=
        loopStep_length_le c r total t acc h
      by_cases h2 : (loopStep c r total t acc).1.length < total
      · rw [if_pos h2] at hres
        cases hnw : getNextTimeWindow c (loopStep c r total t acc).2 with
        | some nw =>
          rw [hnw] at hres
          exact ih _ _ _ hse hres
        | none =>
          rw [hnw] at hres
          cases hres
          exact hse
      · rw [if_neg h2] at hres
        exact ih _ _ _ hse hres
    · rw [if_neg hlt] at hres
      cases hres
      exact h

theorem allDayGo_length (r : Nat → Int) :
    ∀ (n : Nat) (k : Nat) (t : Time), (allDayGo r k t n).length = n := by
  intro n
  induction n with
  | zero => intro k t; rfl
  | succ m ih =>
    intro k t
    simp only [allDayGo, List.length_cons, ih]

/-- C4: every timestamp that the window scheduler assigns inside a window is strictly
before that window's end instant (the loop breaks before pushing a cursor at or past
`window.end`), and the list returned by `scheduleJobsWithTimeWindows` never has more
than the requested `totalJobs` entries, for arbitrary interval draws. -/
theorem c4_window_clamp :
    (∀ (c : SchedCampaign) (w : TimeWindow) (t : Time) (cap : Int) (r : Nat → Int) (k : Nat),
      ∀ x ∈ scheduleJobsInWindow c w t cap r k, x < w.endTime) ∧
    (∀ (c : SchedCampaign) (total : Nat) (t : Time) (r : Nat → Int) (fuel : Nat)
      (res : List Time × Time),
      scheduleJobsWithTimeWindows c total t r fuel = some res → res.1.length ≤ total) := by
  constructor
  · exact scheduleJobsInWindow_mem_lt
  · intro c total t r fuel res hres
    unfold scheduleJobsWithTimeWindows at hres
    by_cases hall : (c.isAllDay || !(hasTimeRestrictions c)) = true
    · rw [if_pos hall] at hres
      cases hres
      unfold scheduleJobsAllDay
      simp [allDayGo_length]
    · rw [if_neg hall] at hres
      rcases Option.map_eq_some'.mp hres with ⟨ts, hts, hf⟩
      have hlen := scheduleLoop_length_le c r total fuel t [] ts (Nat.zero_le total) hts
      rw [← hf]
      exact hlen

/-- Witness for C4: a concrete in-window run (window 10:00 to 10:10, 4-minute
pacing, draw stream `r30` unused vs used) and a concrete all-day run. -/
theorem c4_window_clamp_witness :
    (36000000 ∈ scheduleJobsInWindow cFour wTen 36000000 5 r30 0 ∧
      (36000000 : Int) < wTen.endTime) ∧
    (scheduleJobsWithTimeWindows cAllDay 2 0 r30 1 = some ([0, 1800000], 1800000) ∧
      ([0, 1800000] : List Time).length ≤ 2) :=
  ⟨⟨by decide, c4_window_clamp.1 cFour wTen 36000000 5 r30 0 36000000 (by decide)⟩,
    ⟨by decide, c4_window_clamp.2 cAllDay 2 0 r30 1 ([0, 1800000], 1800000) (by decide)⟩⟩

/-- C9 counterexample: the all-day campaign `c9Bad` has
`minIntervalMinutes = maxIntervalMinutes = 0` (accepted by `createCampaign` since
`0 ?? 30` keeps 0), so the only admissible draw sequence is constantly 0
(`rZero`, and indeed `rZero i ∈ [0,0]`), and with two requested jobs the scheduler
returns the timestamp list `[startTime, startTime]`, which is not strictly
increasing — refuting the claim as stated for every all-day campaign. -/
theorem c9_counterexample :
    c9Bad.isAllDay = true ∧
    rZero 0 = c9Bad.minIntervalMinutes ∧ rZero 1 = c9Bad.maxIntervalMinutes ∧
    scheduleJobsWithTimeWindows c9Bad 2 0 rZero 0 = some ([0, 0], 0) ∧
    ¬ List.Chain' (· < ·) ([0, 0] : List Time) := by
  refine ⟨rfl, rfl, rfl, by decide, by simp [List.chain'_cons]⟩

theorem allDayGo_chain (r : Nat → Int) (hr : ∀ i, 1 ≤ r i) :
    ∀ (n : Nat) (k : Nat) (t : Time), List.Chain' (· < ·) (allDayGo r k t n) := by
  intro n
  induction n with
  | zero => intro k t; simp [allDayGo]
  | succ m ih =>
    intro k t
    rw [allDayGo, List.chain'_cons']
    refine ⟨?_, ih _ _⟩
    intro b hb
    cases m with
    | zero => simp [allDayGo] at hb
    | succ m2 =>
      rw [allDayGo] at hb
      simp only [List.head?_cons, Option.mem_def, Option.some.injEq] at hb
      subst hb
      have h1 := hr k
      linarith

/-- C9 amended: for every all-day campaign with `minIntervalMinutes ≥ 1` (in
particular any campaign using the defaults 30/120) and draws inside
`[minIntervalMinutes, maxIntervalMinutes]`, the scheduler returns (for any fuel)
exactly `totalJobs` timestamps in strictly increasing order, with
`estimatedCompletion` the last timestamp, or `startTime` when there are none. -/
theorem c9_allday_monotone (c : SchedCampaign) (total : Nat) (t : Time) (r : Nat → Int)
    (hall : c.isAllDay = true)
    (hr : ∀ i, c.minIntervalMinutes ≤ r i ∧ r i ≤ c.maxIntervalMinutes)
    (hmin : 1 ≤ c.minIntervalMinutes) :
    (∀ fuel, scheduleJobsWithTimeWindows c total t r fuel
      = some (scheduleJobsAllDay c total t r)) ∧
    (scheduleJobsAllDay c total t r).1.length = total ∧
    List.Chain' (· < ·) (scheduleJobsAllDay c total t r).1 ∧
    (scheduleJobsAllDay c total t r).2
      = (scheduleJobsAllDay c total t r).1.getLast?.getD t := by
  refine ⟨?_, ?_, ?_, rfl⟩
  · intro fuel
    unfold scheduleJobsWithTimeWindows
    rw [if_pos (by simp [hall])]
  · unfold scheduleJobsAllDay
    simp [allDayGo_length]
  · unfold scheduleJobsAllDay
    exact allDayGo_chain r (fun i => le_trans hmin (hr i).1) total 0 t

/-- Witness for C9 amended at the concrete all-day campaign with 30-minute pacing,
two jobs and the constant draw stream 30. -/
theorem c9_allday_monotone_witness :
    (scheduleJobsWithTimeWindows cAllDay 2 0 r30 0 = some (scheduleJobsAllDay cAllDay 2 0 r30)) ∧
    (scheduleJobsAllDay cAllDay 2 0 r30).1.length = 2 ∧
    List.Chain' (· < ·) (scheduleJobsAllDay cAllDay 2 0 r30).1 ∧
    (scheduleJobsAllDay cAllDay 2 0 r30).2
      = (scheduleJobsAllDay cAllDay 2 0 r30).1.getLast?.getD 0 := by
  have h := c9_allday_monotone cAllDay 2 0 r30 rfl
    (fun i => ⟨le_refl 30, le_refl 30⟩) (by decide)
  exact ⟨h.1 0, h.2.1, h.2.2.1, h.2.2.2⟩

theorem fdiv_day_small (c : Int) (h0 : 0 ≤ c) (h1 : c < dayMs) : c.fdiv dayMs = 0 := by
  rw [Int.fdiv_eq_ediv _ (by decide : (0:Int) ≤ dayMs)]
  exact Int.ediv_eq_zero_of_lt h0 h1

theorem startOfDay_base (k c : Int) (h0 : 0 ≤ c) (h1 : c < dayMs) :
    startOfDay (k * dayMs + c) = k * dayMs := by
  unfold startOfDay
  have h2 : (k * dayMs + c).fdiv dayMs = k := by
    rw [Int.fdiv_eq_ediv _ (by decide : (0:Int) ≤ dayMs), add_comm,
      Int.add_mul_ediv_right c k (by decide : dayMs ≠ 0),
      Int.ediv_eq_zero_of_lt h0 h1]
    ring
  rw [h2]
  ring

theorem c3_currentWindow (k : Int) :
    getCurrentTimeWindow c3Bad (k * dayMs + 36000000)
      = some ⟨k * dayMs + 36000000, k * dayMs + 36600000, true, 10⟩ := by
  have h1 : startOfDay (k * dayMs + 36000000) = k * dayMs :=
    startOfDay_base k 36000000 (by decide) (by decide)
  simp only [getCurrentTimeWindow, c3Bad, h1]
  rw [if_neg (by simp), if_pos (by simp)]
  have h2 : (k * dayMs + 36600000) - (k * dayMs + 36000000) = 600000 := by ring
  rw [h2]
  have h3 : Int.fdiv 600000 60000 = 10 := by decide
  rw [h3]

theorem c3_schedInfo (k : Int) :
    getScheduleInfo c3Bad (k * dayMs + 36000000)
      = ⟨true, k * dayMs + 36000000,
          some ⟨k * dayMs + 36000000, k * dayMs + 36600000, true, 10⟩,
          getNextTimeWindow c3Bad (k * dayMs + 36000000),
          "Within time window"⟩ := by
  simp only [getScheduleInfo]
  rw [if_neg (by decide : ¬((c3Bad.isAllDay || !(hasTimeRestrictions c3Bad)) = true))]
  rw [c3_currentWindow]
  simp [isWithinWindow]

theorem c3_inWindow_empty (k : Int) (r : Nat → Int) :
    scheduleJobsInWindow c3Bad ⟨k * dayMs + 36000000, k * dayMs + 36600000, true, 10⟩
      (k * dayMs + 36000000) 1 r 0 = [] := by
  unfold scheduleJobsInWindow
  norm_num [c3Bad]
  have h1 : Int.fdiv 20 60 = 0 := by decide
  rw [h1]
  simp [windowGo]

theorem c3_loopStep (k : Int) (r : Nat → Int) :
    loopStep c3Bad r 1 (k * dayMs + 36000000) [] = ([], k * dayMs + 36600000) := by
  unfold loopStep
  rw [c3_schedInfo]
  simpa using c3_inWindow_empty k r

theorem c3_next_at_end (k : Int) :
    getNextTimeWindow c3Bad (k * dayMs + 36600000)
      = some ⟨k * dayMs + 36000000 + dayMs, k * dayMs + 36600000 + 1 * dayMs, false, 10⟩ := by
  have h1 : startOfDay (k * dayMs + 36600000) = k * dayMs :=
    startOfDay_base k 36600000 (by decide) (by decide)
  simp only [getNextTimeWindow, c3Bad, h1]
  rw [if_neg (by simp), if_neg (by simp)]
  have h2 : calculateWindowDuration ⟨false, some 36000000, some 36600000, 30, 30⟩ = 10 := by
    decide
  rw [h2]

theorem c3_loop_stuck (r : Nat → Int) :
    ∀ (fuel : Nat) (k : Int), scheduleLoop c3Bad r 1 fuel (k * dayMs + 36000000) [] = none := by
  intro fuel
  induction fuel with
  | zero => intro k; rfl
  | succ m ih =>
    intro k
    rw [scheduleLoop]
    rw [if_pos (by decide : ([] : List Time).length < 1)]
    rw [c3_loopStep k r]
    rw [if_pos (by decide : ([] : List Time).length < 1)]
    rw [c3_next_at_end k]
    have h2 : k * dayMs + 36000000 + dayMs = (k + 1) * dayMs + 36000000 := by ring
    simp only [h2]
    exact ih (k + 1)

theorem c3_loop_entry (r : Nat → Int) :
    ∀ fuel : Nat, scheduleLoop c3Bad r 1 fuel 0 [] = none := by
  intro fuel
  cases fuel with
  | zero => rfl
  | succ m =>
    rw [scheduleLoop]
    rw [if_pos (by decide : ([] : List Time).length < 1)]
    have hstep : loopStep c3Bad r 1 0 [] = ([], 0) := by
      unfold loopStep
      rw [show getScheduleInfo c3Bad 0
        = ⟨false, 36000000, none, some ⟨36000000, 36600000, true, 10⟩, "Outside time window"⟩
        from by decide]
      rfl
    rw [hstep]
    rw [if_pos (by decide : ([] : List Time).length < 1)]
    rw [show getNextTimeWindow c3Bad 0 = some ⟨36000000, 36600000, true, 10⟩ from by decide]
    have h := c3_loop_stuck r m 0
    simpa using h

/-- C3 is refuted by the code: for the window-restricted campaign `c3Bad`
(daily window 10:00 to 10:10, `minIntervalMinutes = maxIntervalMinutes = 30`),
one requested job and start time midnight of day 0, the `while` loop of
`scheduleJobsWithTimeWindows` never terminates: each daily window fits
`⌊10 / 30⌋ = 0` jobs, and `getNextTimeWindow` always returns the next day's
window when daily times are configured, so the `break` branch is unreachable and
the cursor advances day by day forever. Formally, for every interval-draw stream
and every fuel bound, the fuel-indexed loop fails to finish. -/
theorem c3_scheduler_nonterminating (r : Nat → Int) (fuel : Nat) :
    scheduleJobsWithTimeWindows c3Bad 1 0 r fuel = none := by
  unfold scheduleJobsWithTimeWindows
  rw [if_neg (by decide : ¬((c3Bad.isAllDay || !(hasTimeRestrictions c3Bad)) = true))]
  rw [c3_loop_entry r fuel]
  rfl

end CRM
